import Mathlib

/-!
Verification of the claudeboard VS Code extension (v1.0.1).

This file gives a shallow embedding of the clipboard-acquisition services
(`src/services/clipboard.ts`), the workspace file retention cleanup
(`src/services/fileManager.ts`) and the configuration validation
(`src/services/configuration.ts`), and proves properties of those embeddings.

External processes (PowerShell, xclip, wl-paste, osascript, pbpaste) and the
filesystem effects of the helper scripts are modelled as an explicit
environment value chosen adversarially: each `exec` invocation either fails
(process error, spawn failure or timeout all reach the same `(error, ...)`
callback branch) or succeeds with some stdout, and the helper-written
temporary file may or may not exist with arbitrary contents.  Byte buffers
are `List Nat`; textual stdout is `String`.

For the macOS variant we embed `MacOSClipboardService` as shipped in the
v1.0.1 package (the multi-strategy implementation documented in
CHANGELOG 1.0.1: AppleScript primary strategy, then a pbpaste fallback over
public.png / public.tiff / public.jpeg).  The Windows and Linux services are
identical in the 1.0.0 and 1.0.1 versions of `services/clipboard.ts`.
-/

/-- Outcome of one `exec` callback: `err` when the callback receives a
non-null `error` (process missing, spawn failure, non-zero exit, timeout),
`ok stdout` otherwise.  `α` is the stdout type (`String` for text commands,
`List Nat` for commands run with `encoding: buffer`). -/
inductive ProcResult (α : Type) where
  | err : ProcResult α
  | ok (stdout : α) : ProcResult α
deriving DecidableEq

/-- Result of one `getImage()` call, i.e. of the promise it returns:
`found buffer format` models resolving with an `ImageData` value,
`noImage` models resolving with `null`, `error` models rejection. -/
inductive GetImageOutcome where
  | found (buffer : List Nat) (format : String) : GetImageOutcome
  | noImage : GetImageOutcome
  | error : GetImageOutcome
deriving DecidableEq

/-- JavaScript `String.prototype.startsWith`: the receiver's characters
begin with the argument's characters. -/
def jsStartsWith (s p : String) : Bool := decide (s.data.take p.data.length = p.data)

/-- JavaScript `String.prototype.trim`: strip leading and trailing
whitespace characters. -/
def jsTrim (s : String) : String :=
  String.mk (((s.data.dropWhile Char.isWhitespace).reverse.dropWhile Char.isWhitespace).reverse)

/-! ## Windows variant (`WindowsClipboardService`, clipboard.ts lines 46-131) -/

/-- Environment of one Windows `getImage()` call.
`scriptResult` is the outcome of `executeClipboardCommand` running the
PowerShell helper (stdout is textual).  `fileAfterScript` is the state of the
exclusively-owned temporary file when the helper has finished: `none` if the
file does not exist on disk, `some bytes` if it exists with those contents
(the helper is external, so the marker it prints and the file it writes are
chosen independently by the environment). -/
structure WinEnv where
  scriptResult : ProcResult String
  fileAfterScript : Option (List Nat)

/-- Existence state of the Windows temporary acquisition artifacts: the temp
file `clipboard-<random>.png` and its containing `vscode-clipboard-` temp
directory. -/
structure ArtifactState where
  fileExists : Bool
  dirExists : Bool
deriving DecidableEq

/-- `ManagedTempFile.dispose` (clipboard.ts lines 32-43): unlink the file if
it exists, then remove the (by then empty) directory if it exists; fs errors
are swallowed, and with standard fs semantics both removals succeed. -/
def dispose (s : ArtifactState) : ArtifactState :=
  let s1 := if s.fileExists then { s with fileExists := false } else s
  if s1.dirExists then { s1 with dirExists := false } else s1

/-- `WindowsClipboardService.getImage` together with the final state of its
temporary artifacts.  The body runs in `try ... finally tempFile.dispose()`:
`executeClipboardCommand` rejecting propagates as rejection; otherwise the
result is `null` unless the trimmed stdout starts with the `success` marker
and the temp file exists, in which case the file is read and returned with
format `png`.  `dispose` runs on every exit path; when it runs, the temp
directory exists (created by `createTempFile`) and the file exists iff the
helper left it on disk. -/
def windowsGetImageRun (env : WinEnv) : GetImageOutcome × ArtifactState :=
  let duringFinally : ArtifactState :=
    { fileExists := env.fileAfterScript.isSome, dirExists := true }
  let outcome : GetImageOutcome :=
    match env.scriptResult with
    | ProcResult.err => GetImageOutcome.error
    | ProcResult.ok out =>
      if jsStartsWith (jsTrim out) "success" then
        match env.fileAfterScript with
        | none => GetImageOutcome.noImage
        | some bs => GetImageOutcome.found bs "png"
      else GetImageOutcome.noImage
  (outcome, dispose duringFinally)

/-- The value `WindowsClipboardService.getImage` resolves or rejects with. -/
def windowsGetImage (env : WinEnv) : GetImageOutcome :=
  (windowsGetImageRun env).1

/-! ## Linux variant (`LinuxClipboardService`, clipboard.ts lines 133-222) -/

/-- Environment of one Linux `getImage()` call: the outcomes of the two
candidate commands `xclip -selection clipboard -t image/png -o` and
`wl-paste -t image/png`, both run with `encoding: buffer`. -/
structure LinuxEnv where
  xclip : ProcResult (List Nat)
  wlpaste : ProcResult (List Nat)

/-- Second iteration of the command loop in `LinuxClipboardService.getImage`:
try `wl-paste`; a process error or empty output ends the loop, which then
returns `null`.  (`buffer && buffer.length > 0`: a Node `Buffer` is always
truthy, so only the length test matters.) -/
def linuxSecond (env : LinuxEnv) : GetImageOutcome :=
  match env.wlpaste with
  | ProcResult.ok bs =>
    if 0 < bs.length then GetImageOutcome.found bs "png" else GetImageOutcome.noImage
  | ProcResult.err => GetImageOutcome.noImage

/-- `LinuxClipboardService.getImage`: first loop iteration runs `xclip`; a
caught process error or empty output falls through to the `wl-paste`
iteration; the first non-empty stdout is returned with format `png`. -/
def linuxGetImage (env : LinuxEnv) : GetImageOutcome :=
  match env.xclip with
  | ProcResult.ok bs =>
    if 0 < bs.length then GetImageOutcome.found bs "png" else linuxSecond env
  | ProcResult.err => linuxSecond env

/-! ## macOS variant (`MacOSClipboardService`, v1.0.1 clipboard.ts) -/

/-- Environment of one macOS `getImage()` call.  `osascript` is the outcome
of `executeAppleScript` running the primary-strategy script (stdout textual:
either a POSIX temp-file path or an `ERROR:`-prefixed failure marker).
`tempFileRead` is the result of `fs.promises.readFile` on the path the
script printed: `none` if the read throws, `some bytes` otherwise.
`pbpastePng`/`pbpasteTiff`/`pbpasteJpeg` are the outcomes of
`pbpaste -Prefer public.png` / `public.tiff` / `public.jpeg` run in binary
mode by the fallback strategy. -/
structure MacEnv where
  osascript : ProcResult String
  tempFileRead : Option (List Nat)
  pbpastePng : ProcResult (List Nat)
  pbpasteTiff : ProcResult (List Nat)
  pbpasteJpeg : ProcResult (List Nat)

/-- `MacOSClipboardService.getImageViaAppleScript`: rejects if `osascript`
fails, if the trimmed output carries the `ERROR:` failure marker, or if the
temp file the script names cannot be read; otherwise resolves with the temp
file's bytes. -/
def getImageViaAppleScript (env : MacEnv) : ProcResult (List Nat) :=
  match env.osascript with
  | ProcResult.err => ProcResult.err
  | ProcResult.ok stdout =>
    let output := jsTrim stdout
    if jsStartsWith output "ERROR:" then ProcResult.err
    else
      match env.tempFileRead with
      | none => ProcResult.err
      | some bs => ProcResult.ok bs

/-- The fixed fallback list of `{ uti, format }` pairs in
`MacOSClipboardService.getImage`: PNG, then TIFF, then JPEG. -/
def macFormats : List (String × String) :=
  [("public.png", "png"), ("public.tiff", "tiff"), ("public.jpeg", "jpeg")]

/-- `getImageViaPbpaste uti` = `pbpaste -Prefer <uti>` in binary mode,
dispatched into the environment by content-type identifier. -/
def pbpaste (env : MacEnv) (uti : String) : ProcResult (List Nat) :=
  if uti = "public.png" then env.pbpastePng
  else if uti = "public.tiff" then env.pbpasteTiff
  else if uti = "public.jpeg" then env.pbpasteJpeg
  else ProcResult.err

/-- The fallback loop of `MacOSClipboardService.getImage`: for each
`{ uti, format }` pair in order, a caught pbpaste error or empty output moves
to the next pair; the first non-empty stdout is returned tagged with that
pair's format; exhaustion yields `null`. -/
def macFallbackLoop (env : MacEnv) : List (String × String) → GetImageOutcome
  | [] => GetImageOutcome.noImage
  | (uti, fmt) :: rest =>
    match pbpaste env uti with
    | ProcResult.ok bs =>
      if 0 < bs.length then GetImageOutcome.found bs fmt else macFallbackLoop env rest
    | ProcResult.err => macFallbackLoop env rest

/-- `MacOSClipboardService.getImage` (v1.0.1): strategy 1 is the AppleScript
primary; if it throws (caught) or yields an empty buffer, the pbpaste
fallback loop over `macFormats` runs.  Every strategy failure is caught, so
the method always resolves (never rejects). -/
def macGetImage (env : MacEnv) : GetImageOutcome :=
  match getImageViaAppleScript env with
  | ProcResult.ok bs =>
    if 0 < bs.length then GetImageOutcome.found bs "png" else macFallbackLoop env macFormats
  | ProcResult.err => macFallbackLoop env macFormats

/-! ## Workspace file manager (`WorkspaceFileManager`, fileManager.ts) -/

/-- Entry kind reported by `vscode.workspace.fs.readDirectory`.  The cleanup
filter compares with strict equality against `vscode.FileType.File`, so
directories, symbolic links and other kinds are distinct constructors. -/
inductive FileKind where
  | file : FileKind
  | directory : FileKind
  | symbolicLink : FileKind
  | unknown : FileKind
deriving DecidableEq

/-- The accumulator step of JavaScript `parseInt` on a decimal digit
character: `n * 10 + (code of c - code of 0)`. -/
def digitStep (n : Nat) (c : Char) : Nat := n * 10 + (c.toNat - 48)

/-- `parseInt(match[1], 10)` on a non-empty string of decimal digits
(exact integer semantics; the timestamps involved are far below 2^53, where
JavaScript numbers are exact). -/
def digitsToNat (cs : List Char) : Nat := cs.foldl digitStep 0

/-- The regular-expression match in `WorkspaceFileManager.isOldImageFile`
(fileManager.ts lines 136-144): `/^image_(\d+)\./` anchored at the start
requires the literal `image_`, then a maximal non-empty run of decimal
digits, then a literal dot; on a match, the digit run is parsed back to the
embedded timestamp. -/
def parseImageTimestamp (fileName : String) : Option Nat :=
  let cs := fileName.data
  if cs.take 6 = "image_".data then
    let rest := cs.drop 6
    let ds := rest.takeWhile Char.isDigit
    if ds ≠ [] ∧ (rest.drop ds.length).head? = some '.' then
      some (digitsToNat ds)
    else none
  else none

/-- `WorkspaceFileManager.isOldImageFile fileName cutoffTime`: false when the
name does not match `/^image_(\d+)\./`, otherwise whether the parsed
timestamp is strictly below the cutoff. -/
def isOldImageFile (fileName : String) (cutoffTime : Int) : Bool :=
  match parseImageTimestamp fileName with
  | none => false
  | some ts => decide ((ts : Int) < cutoffTime)

/-- `WorkspaceFileManager.cleanupOldImages` (fileManager.ts lines 68-98),
reified as the list of file names it deletes from the images directory.
`now` stands for `Date.now()` and `entries` for the
`readDirectory` listing.  `retentionDays === 0` returns immediately without
deleting anything; otherwise the cutoff is `now - retentionDays * 24*60*60*1000`
and the deleted entries are exactly those kept by the filter: plain files,
not named `.gitignore`, and old image files w.r.t. the cutoff.  (Failures of
individual deletes are caught and do not enlarge or shrink the attempted
set.) -/
def cleanupOldImages (retentionDays : Int) (now : Int)
    (entries : List (String × FileKind)) : List String :=
  if retentionDays = 0 then []
  else
    let cutoffTime := now - retentionDays * (24 * 60 * 60 * 1000)
    (entries.filter fun e =>
      decide (e.2 = FileKind.file) && decide (e.1 ≠ ".gitignore")
        && isOldImageFile e.1 cutoffTime).map Prod.fst

/-- Decimal digit character for `d < 10`: code 48 + d. -/
def digitChar (d : Nat) : Char := Char.ofNat (48 + d)

/-- Most-significant-first decimal digit characters of `n` (empty for 0). -/
def natChars (n : Nat) : List Char := (Nat.digits 10 n).reverse.map digitChar

/-- Decimal rendering of a natural number, as produced by the JavaScript
template literal `${timestamp}`. -/
def natToString (n : Nat) : String :=
  if n = 0 then "0" else String.mk (natChars n)

/-- `WorkspaceFileManager.generateFileName` (fileManager.ts lines 131-134)
with the `Date.now()` timestamp made explicit: `image_<timestamp>.<format>`. -/
def generateFileName (timestamp : Nat) (format : String) : String :=
  "image_" ++ natToString timestamp ++ "." ++ format

/-! ## Configuration service (`VSCodeConfigurationService`, configuration.ts) -/

/-- A raw configured value as read by `config.get('retentionDays')`:
a finite JavaScript number (modelled exactly as a rational; every value
relevant here is exactly representable as a double), `NaN` (for which
`typeof` is still `number` but every ordering comparison is false), or a
value of any other type. -/
inductive RawValue where
  | num (q : ℚ) : RawValue
  | nan : RawValue
  | notNumber : RawValue

/-- `VSCodeConfigurationService.validateRetentionDays` (configuration.ts
lines 86-92): if the value is a number with `0 < value ≤ 365` it returns
`Math.floor(value)`, otherwise the default 30.  `NaN` fails the comparison
and non-numbers fail the `typeof` test. -/
def validateRetentionDays : RawValue → Int
  | RawValue.num q => if 0 < q ∧ q ≤ 365 then ⌊q⌋ else 30
  | RawValue.nan => 30
  | RawValue.notNumber => 30

/-- `VSCodeConfigurationService.getRetentionDays` (configuration.ts lines
53-56): read the raw configured value and validate it. -/
def getRetentionDays (raw : RawValue) : Int := validateRetentionDays raw

/-- `ConfigValidator.isValidRetentionDays` (configuration.ts lines 122-124):
`Number.isInteger(value) && value > 0 && value <= 365`. -/
def isValidRetentionDays (value : ℚ) : Bool :=
  decide (value.den = 1) && decide (0 < value) && decide (value ≤ 365)

/-! ## Theorems about the clipboard services -/

/-- Any `found` result of the macOS pbpaste fallback loop has a non-empty
buffer and a format drawn from the loop's format list. -/
theorem macFallbackLoop_found_spec (env : MacEnv) :
    ∀ (l : List (String × String)) (bs : List Nat) (fmt : String),
      macFallbackLoop env l = GetImageOutcome.found bs fmt →
      0 < bs.length ∧ ∃ uti, (uti, fmt) ∈ l := by
  intro l
  induction l with
  | nil => intro bs fmt h; simp [macFallbackLoop] at h
  | cons p rest ih =>
    intro bs fmt h
    obtain ⟨uti, f⟩ := p
    simp only [macFallbackLoop] at h
    split at h
    · split at h
      · obtain ⟨rfl, rfl⟩ := GetImageOutcome.found.inj h
        exact ⟨by assumption, uti, List.mem_cons_self _ _⟩
      · obtain ⟨h1, u, hu⟩ := ih bs fmt h
        exact ⟨h1, u, List.mem_cons_of_mem _ hu⟩
    · obtain ⟨h1, u, hu⟩ := ih bs fmt h
      exact ⟨h1, u, List.mem_cons_of_mem _ hu⟩

/-- Claim C1, counterexample: the claim fails for the Windows variant.  When
the helper prints the `success` marker but leaves an empty temporary file on
disk, `getImage()` resolves with a zero-length buffer, so it is not the case
that every non-null result carries a buffer of positive length. -/
theorem windows_found_buffer_may_be_empty :
    ¬ (∀ (env : WinEnv) (bs : List Nat) (fmt : String),
        windowsGetImage env = GetImageOutcome.found bs fmt → 0 < bs.length) := by
  intro hclaim
  have h := hclaim ⟨ProcResult.ok "success", some []⟩ [] "png" (by decide)
  simp at h

/-- Claim C1 (amended): whenever `getImage()` resolves to a non-null
`ImageData`, the format is one of `png`, `tiff`, `jpeg` on every platform;
the buffer has positive length on Linux and macOS; on Windows the buffer is
exactly the contents of the helper-written temporary file, which the code
does not check for non-emptiness. -/
theorem found_format_and_bytes :
    (∀ (env : LinuxEnv) (bs : List Nat) (fmt : String),
        linuxGetImage env = GetImageOutcome.found bs fmt →
        0 < bs.length ∧ (fmt = "png" ∨ fmt = "tiff" ∨ fmt = "jpeg")) ∧
    (∀ (env : MacEnv) (bs : List Nat) (fmt : String),
        macGetImage env = GetImageOutcome.found bs fmt →
        0 < bs.length ∧ (fmt = "png" ∨ fmt = "tiff" ∨ fmt = "jpeg")) ∧
    (∀ (env : WinEnv) (bs : List Nat) (fmt : String),
        windowsGetImage env = GetImageOutcome.found bs fmt →
        fmt = "png" ∧ env.fileAfterScript = some bs) := by
  refine ⟨?_, ?_, ?_⟩
  · intro env bs fmt h
    simp only [linuxGetImage, linuxSecond] at h
    split at h
    · split at h
      · obtain ⟨rfl, rfl⟩ := GetImageOutcome.found.inj h
        exact ⟨by assumption, Or.inl rfl⟩
      · split at h
        · split at h
          · obtain ⟨rfl, rfl⟩ := GetImageOutcome.found.inj h
            exact ⟨by assumption, Or.inl rfl⟩
          · simp at h
        · simp at h
    · split at h
      · split at h
        · obtain ⟨rfl, rfl⟩ := GetImageOutcome.found.inj h
          exact ⟨by assumption, Or.inl rfl⟩
        · simp at h
      · simp at h
  · intro env bs fmt h
    have hfb : macFallbackLoop env macFormats = GetImageOutcome.found bs fmt →
        0 < bs.length ∧ (fmt = "png" ∨ fmt = "tiff" ∨ fmt = "jpeg") := by
      intro hf
      obtain ⟨h1, uti, hu⟩ := macFallbackLoop_found_spec env macFormats bs fmt hf
      simp only [macFormats, List.mem_cons, Prod.mk.injEq,
        List.not_mem_nil, or_false] at hu
      rcases hu with ⟨_, rfl⟩ | ⟨_, rfl⟩ | ⟨_, rfl⟩
      · exact ⟨h1, Or.inl rfl⟩
      · exact ⟨h1, Or.inr (Or.inl rfl)⟩
      · exact ⟨h1, Or.inr (Or.inr rfl)⟩
    simp only [macGetImage] at h
    split at h
    · split at h
      · obtain ⟨rfl, rfl⟩ := GetImageOutcome.found.inj h
        exact ⟨by assumption, Or.inl rfl⟩
      · exact hfb h
    · exact hfb h
  · intro env bs fmt h
    simp only [windowsGetImage, windowsGetImageRun] at h
    split at h
    · simp at h
    · split at h
      · split at h
        · simp at h
        · obtain ⟨rfl, rfl⟩ := GetImageOutcome.found.inj h
          constructor
          · rfl
          · assumption
      · simp at h

/-- Claim C1 witness: the amended theorem applied at concrete environments
for each platform. -/
theorem found_format_and_bytes_witness :
    (0 < [137].length ∧ ("png" = "png" ∨ "png" = "tiff" ∨ "png" = "jpeg")) ∧
    (0 < [137].length ∧ ("png" = "png" ∨ "png" = "tiff" ∨ "png" = "jpeg")) ∧
    ("png" = "png" ∧
      (WinEnv.mk (ProcResult.ok "success") (some [])).fileAfterScript = some []) :=
  ⟨found_format_and_bytes.1 ⟨ProcResult.ok [137], ProcResult.err⟩ [137] "png" (by decide),
   found_format_and_bytes.2.1
     ⟨ProcResult.err, none, ProcResult.ok [137], ProcResult.err, ProcResult.err⟩ [137] "png"
     (by decide),
   found_format_and_bytes.2.2 ⟨ProcResult.ok "success", some []⟩ [] "png" (by decide)⟩

/-- Claim C2: on macOS, `getImage()` attempts the AppleScript primary
strategy first and otherwise falls back to pbpaste with PNG, TIFF, JPEG in
order.  For any clipboard whose PNG request yields nothing (process error or
empty output) while the TIFF request yields non-empty bytes, the call
resolves with a result whose format is `tiff` (fallback path) or `png`
(primary path), never with `null`. -/
theorem macos_tiff_only_clipboard_yields_tiff_or_png (env : MacEnv) (ts : List Nat)
    (hpng : env.pbpastePng = ProcResult.err ∨ env.pbpastePng = ProcResult.ok [])
    (htiff : env.pbpasteTiff = ProcResult.ok ts) (hts : ts ≠ []) :
    ∃ bs, macGetImage env = GetImageOutcome.found bs "tiff" ∨
          macGetImage env = GetImageOutcome.found bs "png" := by
  have hfb : macFallbackLoop env macFormats = GetImageOutcome.found ts "tiff" := by
    rcases hpng with hp | hp <;>
      simp [macFormats, macFallbackLoop, pbpaste, hp, htiff, List.length_pos.mpr hts]
  unfold macGetImage
  cases ha : getImageViaAppleScript env with
  | ok bsa =>
    by_cases h1 : 0 < bsa.length
    · refine ⟨bsa, Or.inr ?_⟩
      show (if 0 < bsa.length then GetImageOutcome.found bsa "png"
            else macFallbackLoop env macFormats) = GetImageOutcome.found bsa "png"
      rw [if_pos h1]
    · refine ⟨ts, Or.inl ?_⟩
      show (if 0 < bsa.length then GetImageOutcome.found bsa "png"
            else macFallbackLoop env macFormats) = GetImageOutcome.found ts "tiff"
      rw [if_neg h1]
      exact hfb
  | err => exact ⟨ts, Or.inl hfb⟩

/-- Claim C2 witness: a clipboard exposing only a TIFF representation, with
the primary strategy failing, yields the TIFF fallback result. -/
theorem macos_tiff_only_clipboard_yields_tiff_or_png_witness :
    ∃ bs,
      macGetImage ⟨ProcResult.err, none, ProcResult.ok [], ProcResult.ok [42], ProcResult.err⟩ =
        GetImageOutcome.found bs "tiff" ∨
      macGetImage ⟨ProcResult.err, none, ProcResult.ok [], ProcResult.ok [42], ProcResult.err⟩ =
        GetImageOutcome.found bs "png" :=
  macos_tiff_only_clipboard_yields_tiff_or_png
    ⟨ProcResult.err, none, ProcResult.ok [], ProcResult.ok [42], ProcResult.err⟩
    [42] (Or.inr rfl) rfl (by decide)

/-- Claim C3, counterexample: on macOS an infrastructure failure of every
helper process (osascript and all three pbpaste invocations failing, e.g.
spawn failure or timeout) is not surfaced as a rejection: `getImage()`
resolves with the null no-image result. -/
theorem macos_infra_failure_returns_null :
    macGetImage ⟨ProcResult.err, none, ProcResult.err, ProcResult.err, ProcResult.err⟩ =
      GetImageOutcome.noImage ∧
    GetImageOutcome.noImage ≠ GetImageOutcome.error := by
  exact ⟨by decide, by simp⟩

/-- Claim C3 (amended): on Windows an infrastructure failure of the helper
process during `getImage()` (process missing, spawn failure or timeout, i.e.
the exec callback receiving an error) rejects the returned promise; on macOS
every strategy failure is caught, and when all helper invocations fail
`getImage()` resolves with the null no-image result instead of rejecting. -/
theorem infra_failure_windows_rejects_macos_null :
    (∀ env : WinEnv, env.scriptResult = ProcResult.err →
        windowsGetImage env = GetImageOutcome.error) ∧
    (∀ env : MacEnv, env.osascript = ProcResult.err →
        env.pbpastePng = ProcResult.err → env.pbpasteTiff = ProcResult.err →
        env.pbpasteJpeg = ProcResult.err →
        macGetImage env = GetImageOutcome.noImage) := by
  constructor
  · intro env h
    simp [windowsGetImage, windowsGetImageRun, h]
  · intro env h1 h2 h3 h4
    simp [macGetImage, getImageViaAppleScript, macFormats, macFallbackLoop, pbpaste,
      h1, h2, h3, h4]

/-- Claim C3 witness: the amended theorem applied at concrete failing
environments for both platforms. -/
theorem infra_failure_windows_rejects_macos_null_witness :
    windowsGetImage ⟨ProcResult.err, none⟩ = GetImageOutcome.error ∧
    macGetImage ⟨ProcResult.err, some [1], ProcResult.err, ProcResult.err, ProcResult.err⟩ =
      GetImageOutcome.noImage :=
  ⟨infra_failure_windows_rejects_macos_null.1 ⟨ProcResult.err, none⟩ rfl,
   infra_failure_windows_rejects_macos_null.2
     ⟨ProcResult.err, some [1], ProcResult.err, ProcResult.err, ProcResult.err⟩ rfl rfl rfl rfl⟩

/-- Claim C4: on every platform, when the helper tools run successfully but
report no image or produce empty output, `getImage()` resolves with `null`
and does not reject: Windows with a non-`success` marker (e.g. `no_image`),
Linux with both tools succeeding on empty output, macOS with the primary
script reporting its `ERROR:` marker (or the temp file read yielding empty
bytes) and all pbpaste requests succeeding on empty output. -/
theorem empty_clipboard_returns_null :
    (∀ (out : String) (tf : Option (List Nat)),
        jsStartsWith (jsTrim out) "success" = false →
        windowsGetImage ⟨ProcResult.ok out, tf⟩ = GetImageOutcome.noImage) ∧
    (linuxGetImage ⟨ProcResult.ok [], ProcResult.ok []⟩ = GetImageOutcome.noImage) ∧
    (∀ (out : String) (tf : Option (List Nat)),
        jsStartsWith (jsTrim out) "ERROR:" = true ∨ tf = some [] →
        macGetImage ⟨ProcResult.ok out, tf, ProcResult.ok [], ProcResult.ok [], ProcResult.ok []⟩ =
          GetImageOutcome.noImage) := by
  refine ⟨?_, by decide, ?_⟩
  · intro out tf h
    simp [windowsGetImage, windowsGetImageRun, h]
  · intro out tf h
    have hfb : ∀ tf' : Option (List Nat), macFallbackLoop
        ⟨ProcResult.ok out, tf', ProcResult.ok [], ProcResult.ok [], ProcResult.ok []⟩
        macFormats = GetImageOutcome.noImage := by
      intro tf'
      simp [macFormats, macFallbackLoop, pbpaste]
    rcases h with herr | hteq
    · simp [macGetImage, getImageViaAppleScript, herr, hfb]
    · subst hteq
      by_cases herr : jsStartsWith (jsTrim out) "ERROR:" = true
      · simp [macGetImage, getImageViaAppleScript, herr, hfb]
      · simp [macGetImage, getImageViaAppleScript, herr, hfb]

/-- Claim C4 witness: the theorem applied at the concrete no-image outputs
each platform's helper actually produces. -/
theorem empty_clipboard_returns_null_witness :
    windowsGetImage ⟨ProcResult.ok "no_image", none⟩ = GetImageOutcome.noImage ∧
    linuxGetImage ⟨ProcResult.ok [], ProcResult.ok []⟩ = GetImageOutcome.noImage ∧
    macGetImage ⟨ProcResult.ok "ERROR:no image", none,
        ProcResult.ok [], ProcResult.ok [], ProcResult.ok []⟩ = GetImageOutcome.noImage :=
  ⟨empty_clipboard_returns_null.1 "no_image" none (by decide),
   empty_clipboard_returns_null.2.1,
   empty_clipboard_returns_null.2.2 "ERROR:no image" none (Or.inl (by decide))⟩

/-- Claim C5: on Windows, when the helper script's output starts with the
`success` marker but the temporary file does not exist on disk,
`getImage()` resolves with `null` and does not reject. -/
theorem windows_success_marker_missing_file_null (out : String)
    (h : jsStartsWith (jsTrim out) "success" = true) :
    windowsGetImage ⟨ProcResult.ok out, none⟩ = GetImageOutcome.noImage := by
  simp [windowsGetImage, windowsGetImageRun, h]

/-- Claim C5 witness: the theorem applied at the literal `success` marker. -/
theorem windows_success_marker_missing_file_null_witness :
    jsStartsWith (jsTrim "success") "success" = true ∧
    windowsGetImage ⟨ProcResult.ok "success", none⟩ = GetImageOutcome.noImage :=
  ⟨by decide, windows_success_marker_missing_file_null "success" (by decide)⟩

/-- Claim C6: on Linux, when the first tool invocation (xclip) fails with a
process error and the second (wl-paste) succeeds with non-empty output,
`getImage()` resolves with exactly the second tool's raw stdout bytes and
format `png`. -/
theorem linux_xclip_error_wlpaste_bytes (bs : List Nat) (h : bs ≠ []) :
    linuxGetImage ⟨ProcResult.err, ProcResult.ok bs⟩ = GetImageOutcome.found bs "png" := by
  simp [linuxGetImage, linuxSecond, List.length_pos.mpr h]

/-- Claim C6 witness: the theorem applied to a concrete non-empty wl-paste
output. -/
theorem linux_xclip_error_wlpaste_bytes_witness :
    linuxGetImage ⟨ProcResult.err, ProcResult.ok [137, 80, 78, 71]⟩ =
      GetImageOutcome.found [137, 80, 78, 71] "png" :=
  linux_xclip_error_wlpaste_bytes [137, 80, 78, 71] (by decide)

/-- Claim C7: on Windows, on every execution of `getImage()` — resolving
with an image, resolving with `null`, or rejecting — the temporary file and
its containing temporary directory are removed by the `finally`-scoped
`dispose` before the call returns: the final artifact state is always
(file gone, directory gone). -/
theorem windows_temp_artifacts_removed (env : WinEnv) :
    (windowsGetImageRun env).2 = ArtifactState.mk false false := by
  cases h : env.fileAfterScript <;> simp [windowsGetImageRun, dispose, h]

/-! ## Theorems about the file manager and configuration -/

/-- The decimal digit character of `d < 10` satisfies the digit test. -/
theorem digitChar_isDigit {d : Nat} (h : d < 10) : (digitChar d).isDigit = true := by
  interval_cases d <;> rfl

/-- Character code of the decimal digit character of `d < 10`. -/
theorem toNat_digitChar {d : Nat} (h : d < 10) : (digitChar d).toNat = 48 + d := by
  interval_cases d <;> rfl

/-- Folding the `parseInt` step over a most-significant-first digit list. -/
theorem foldl_digitStep (L : List Nat) (h : ∀ d ∈ L, d < 10) (a : Nat) :
    (L.map digitChar).foldl digitStep a = a * 10 ^ L.length + Nat.ofDigits 10 L.reverse := by
  induction L generalizing a with
  | nil => simp [Nat.ofDigits]
  | cons d T ih =>
    have hd : d < 10 := h d (List.mem_cons_self _ _)
    have hT : ∀ x ∈ T, x < 10 := fun x hx => h x (List.mem_cons_of_mem _ hx)
    simp only [List.map_cons, List.foldl_cons]
    rw [ih hT]
    have hstep : digitStep a (digitChar d) = a * 10 + d := by
      simp [digitStep, toNat_digitChar hd]
    rw [hstep]
    simp only [List.reverse_cons, List.length_cons, Nat.ofDigits_append,
      Nat.ofDigits_singleton, List.length_reverse]
    ring

/-- `parseInt` inverts the decimal rendering of the digit characters. -/
theorem digitsToNat_natChars (n : Nat) : digitsToNat (natChars n) = n := by
  unfold digitsToNat natChars
  rw [foldl_digitStep]
  · simp [Nat.ofDigits_digits]
  · intro d hd
    exact Nat.digits_lt_base (by norm_num) (List.mem_reverse.mp hd)

/-- `takeWhile` stops exactly at the first failing element after an
all-satisfying block. -/
theorem takeWhile_append_of_all {p : Char → Bool} (l1 : List Char) (c : Char)
    (l2 : List Char) (h1 : ∀ x ∈ l1, p x = true) (hc : p c = false) :
    (l1 ++ c :: l2).takeWhile p = l1 := by
  induction l1 with
  | nil => simp [List.takeWhile_cons, hc]
  | cons a t ih =>
    have ha : p a = true := h1 a (List.mem_cons_self _ _)
    have ht : ∀ x ∈ t, p x = true := fun x hx => h1 x (List.mem_cons_of_mem _ hx)
    simp [List.takeWhile_cons, ha, ih ht]

/-- Every character of the decimal rendering is a digit. -/
theorem natToString_all_digits (n : Nat) :
    ∀ c ∈ (natToString n).data, c.isDigit = true := by
  unfold natToString
  by_cases h : n = 0
  · simp only [h, if_pos rfl]
    decide
  · rw [if_neg h]
    intro c hc
    simp only [natChars, List.mem_map, List.mem_reverse] at hc
    obtain ⟨d, hd, rfl⟩ := hc
    exact digitChar_isDigit (Nat.digits_lt_base (by norm_num) hd)

/-- The decimal rendering of a natural number is never empty. -/
theorem natToString_ne_nil (n : Nat) : (natToString n).data ≠ [] := by
  unfold natToString
  by_cases h : n = 0
  · simp [h]
  · simp [h, natChars, Nat.digits_ne_nil_iff_ne_zero]

/-- The filename parser inverts the filename generator: parsing
`image_<timestamp>.<format>` recovers the timestamp. -/
theorem parseImageTimestamp_generateFileName (ts : Nat) (fmt : String) :
    parseImageTimestamp (generateFileName ts fmt) = some ts := by
  have hdata : (generateFileName ts fmt).data
      = "image_".data ++ ((natToString ts).data ++ '.' :: fmt.data) := by
    simp [generateFileName, String.data_append]
  have hdot : ('.' : Char).isDigit = false := rfl
  simp only [parseImageTimestamp, hdata]
  rw [@List.take_left' Char ['i', 'm', 'a', 'g', 'e', '_']
        ((natToString ts).data ++ '.' :: fmt.data) 6 rfl,
      @List.drop_left' Char ['i', 'm', 'a', 'g', 'e', '_']
        ((natToString ts).data ++ '.' :: fmt.data) 6 rfl,
      if_pos rfl]
  rw [takeWhile_append_of_all _ _ _ (natToString_all_digits ts) hdot]
  rw [List.drop_left]
  rw [if_pos ⟨natToString_ne_nil ts, rfl⟩]
  by_cases h0 : ts = 0
  · subst h0; rfl
  · unfold natToString
    rw [if_neg h0]
    exact congrArg some (digitsToNat_natChars ts)

/-- A generated image filename is never the `.gitignore` marker file. -/
theorem generateFileName_ne_gitignore (ts : Nat) (fmt : String) :
    generateFileName ts fmt ≠ ".gitignore" := by
  intro h
  have hhead : (generateFileName ts fmt).data.head? = some 'i' := by
    have hdata : (generateFileName ts fmt).data
        = "image_".data ++ ((natToString ts).data ++ '.' :: fmt.data) := by
      simp [generateFileName, String.data_append]
    rw [hdata]
    rfl
  rw [h] at hhead
  exact absurd hhead (by decide)

/-- Claim C8: with a directory holding the very old `image_1000.png` and the
freshly generated `image_<now>.png`, `cleanupOldImages` with a 30-day
retention deletes exactly the old file, and with retention 0 deletes
neither. -/
theorem cleanup_retention_scenario (now : Nat)
    (h : 1000 + 30 * (24 * 60 * 60 * 1000) < now) :
    cleanupOldImages 30 (now : Int)
        [("image_1000.png", FileKind.file), (generateFileName now "png", FileKind.file)]
      = ["image_1000.png"] ∧
    cleanupOldImages 0 (now : Int)
        [("image_1000.png", FileKind.file), (generateFileName now "png", FileKind.file)]
      = [] := by
  constructor
  · have hp1 : parseImageTimestamp "image_1000.png" = some 1000 := by decide
    have hold : isOldImageFile "image_1000.png"
        ((now : Int) - 2592000000) = true := by
      simp only [isOldImageFile, hp1]
      rw [decide_eq_true_eq]
      omega
    have hfresh : isOldImageFile (generateFileName now "png")
        ((now : Int) - 2592000000) = false := by
      simp only [isOldImageFile, parseImageTimestamp_generateFileName]
      rw [decide_eq_false_iff_not]
      omega
    have hg1 : decide (("image_1000.png" : String) ≠ ".gitignore") = true := by decide
    have hg2 : decide (generateFileName now "png" ≠ ".gitignore") = true :=
      decide_eq_true (generateFileName_ne_gitignore now "png")
    simp [cleanupOldImages, List.filter_cons, hold, hfresh, hg1, hg2]
  · simp [cleanupOldImages]

/-- Claim C8 witness: the scenario at the concrete clock value 2600000000. -/
theorem cleanup_retention_scenario_witness :
    1000 + 30 * (24 * 60 * 60 * 1000) < 2600000000 ∧
    (cleanupOldImages 30 ((2600000000 : Nat) : Int)
        [("image_1000.png", FileKind.file),
         (generateFileName 2600000000 "png", FileKind.file)]
      = ["image_1000.png"] ∧
     cleanupOldImages 0 ((2600000000 : Nat) : Int)
        [("image_1000.png", FileKind.file),
         (generateFileName 2600000000 "png", FileKind.file)]
      = []) :=
  ⟨by norm_num, cleanup_retention_scenario 2600000000 (by norm_num)⟩

/-- Claim C10: whatever the retention value, the clock and the directory
listing, `cleanupOldImages` deletes only entries that are plain files, are
not named `.gitignore`, and match `image_<digits>.` with a parsed timestamp
strictly below the cutoff `now - retentionDays * 24*60*60*1000`; every other
entry is left untouched. -/
theorem cleanup_deletes_only_matching_files
    (retentionDays now : Int) (entries : List (String × FileKind)) (name : String)
    (h : name ∈ cleanupOldImages retentionDays now entries) :
    ∃ kind, (name, kind) ∈ entries ∧ kind = FileKind.file ∧ name ≠ ".gitignore" ∧
      ∃ ts, parseImageTimestamp name = some ts ∧
        (ts : Int) < now - retentionDays * (24 * 60 * 60 * 1000) := by
  simp only [cleanupOldImages] at h
  by_cases hr : retentionDays = 0
  · rw [if_pos hr] at h
    simp at h
  · rw [if_neg hr] at h
    simp only [List.mem_map] at h
    obtain ⟨⟨n, k⟩, he, rfl⟩ := h
    rw [List.mem_filter] at he
    obtain ⟨hmem, hpred⟩ := he
    simp only [Bool.and_eq_true, decide_eq_true_eq] at hpred
    obtain ⟨⟨hkind, hgit⟩, hold⟩ := hpred
    refine ⟨k, hmem, hkind, hgit, ?_⟩
    simp only [isOldImageFile] at hold
    cases hp : parseImageTimestamp n with
    | none => rw [hp] at hold; simp at hold
    | some ts =>
      rw [hp] at hold
      simp at hold
      exact ⟨ts, rfl, hold⟩

/-- Claim C10 witness: the theorem applied to a one-day retention, a clock
just past one day, and a single matching old file. -/
theorem cleanup_deletes_only_matching_files_witness :
    ∃ kind, (("image_0.png", kind) ∈ [(("image_0.png" : String), FileKind.file)]) ∧
      kind = FileKind.file ∧ ("image_0.png" : String) ≠ ".gitignore" ∧
      ∃ ts, parseImageTimestamp "image_0.png" = some ts ∧
        (ts : Int) < 86400001 - 1 * (24 * 60 * 60 * 1000) :=
  cleanup_deletes_only_matching_files 1 86400001 [("image_0.png", FileKind.file)]
    "image_0.png" (by decide)

/-- Claim C9: refuted by the raw configured value 0.5.  The guard
`typeof value === 'number' && value > 0 && value <= 365` accepts 0.5 and only
then floors it, so `getRetentionDays` returns 0 — outside the claimed 1..365
range, rejected by the repository's own `ConfigValidator.isValidRetentionDays`,
and interpreted by `cleanupOldImages` as "never delete". -/
theorem retention_half_validates_to_zero :
    getRetentionDays (RawValue.num (1 / 2)) = 0 ∧
    isValidRetentionDays ((0 : Int) : ℚ) = false ∧
    cleanupOldImages 0 1700000000000 [("image_1000.png", FileKind.file)] = [] := by
  refine ⟨?_, by decide, by simp [cleanupOldImages]⟩
  show validateRetentionDays (RawValue.num (1 / 2)) = 0
  simp only [validateRetentionDays]
  rw [if_pos (by norm_num)]
  rw [Int.floor_eq_zero_iff]
  constructor <;> norm_num
